import Mathlib

/-!
Verification development for the `js_interaction_detector` repository.

The file shallowly embeds the decision-making parts of the source:

* `rule_inferrer.py` — the validation-rule inference cascade, including a
  small matching engine covering exactly the regular-expression constructs
  used by its `PATTERNS` table (single-character atoms with `?`/`*`/`+`
  quantifiers and one trailing capturing group `(\d+)`), with the
  `re.IGNORECASE` flag modelled by case-folding both sides of every
  literal comparison;
* `recorder/selector_generator.py`, `recorder/action_tracker.py`,
  `recorder/change_observer.py` and `recorder/session.py` — the change
  attribution pipeline, with the browser-side stores (`window.__mutations__`,
  `window.__actionTracker.actions`, the Playwright network callback) carried
  as explicit state fields;
* `listener_extractor.py` and `analyzer.py` — the per-element analysis loop,
  with the CDP retrieval of listeners and script sources abstracted as input
  data on each page element;
* `models.py` — JSON serialization of analysis results, with JSON values as
  an explicit tree type (`json.dumps`/`json.loads` of the Python standard
  library are external to the repository and are the identity on that tree).

Machine integers do not occur; Python `str` is modelled as `String`,
`\d` as ASCII digits and `\s` (and `str.strip`) by `Char.isWhitespace`,
which agree with Python on all inputs exercised here.
-/

namespace JsDetector

/-! ## Regex engine for the constructs used by `rule_inferrer.PATTERNS` -/

/-- A single-character atom of a pattern. -/
inductive RAtom where
  /-- a literal character (compared case-insensitively) -/
  | lit (c : Char)
  /-- `.` — any character except a newline -/
  | anyChar
  /-- `\d` — a digit -/
  | digitCls
  /-- `\s` — a whitespace character -/
  | spaceCls
  /-- `[...]` — one of the listed characters (compared case-insensitively) -/
  | oneOf (cs : List Char)
  deriving DecidableEq, Repr

/-- A quantifier on an atom: exactly one, `?`, `*` or `+`. -/
inductive RQuant where
  | one
  | opt
  | star
  | plus
  deriving DecidableEq, Repr

/-- Does atom `a` match character `c`?  Literal and set comparisons fold case
on both sides, modelling `re.IGNORECASE`. -/
def atomMatches (a : RAtom) (c : Char) : Bool :=
  match a with
  | .lit l => c.toLower == l.toLower
  | .anyChar => c != '\n'
  | .digitCls => c.isDigit
  | .spaceCls => c.isWhitespace
  | .oneOf cs => cs.any (fun l => c.toLower == l.toLower)

/-- A pattern: a sequence of quantified atoms, optionally followed by one
trailing capturing group (the only group shape occurring in `PATTERNS` is a
final `(\d+)`). -/
structure RPat where
  elems : List (RAtom × RQuant)
  capture : Option (RAtom × RQuant) := none
  deriving DecidableEq, Repr

/-- The suffixes that remain after letting quantified atom `(a, q)` consume a
prefix of `s`, listed greediest first (mirroring greedy backtracking). -/
def splits (a : RAtom) (q : RQuant) (s : List Char) : List (List Char) :=
  match q with
  | .one => match s with
    | [] => []
    | c :: t => if atomMatches a c then [t] else []
  | .opt => match s with
    | [] => [[]]
    | c :: t => if atomMatches a c then [t, c :: t] else [c :: t]
  | .star =>
    let n := (s.takeWhile (atomMatches a)).length
    (List.range (n + 1)).map (fun i => s.drop (n - i))
  | .plus =>
    let n := (s.takeWhile (atomMatches a)).length
    (List.range n).map (fun i => s.drop (n - i))

/-- First `some` value in a list, in order. -/
def firstSome : List (Option α) → Option α
  | [] => none
  | some a :: _ => some a
  | none :: rest => firstSome rest

/-- Backtracking matcher: does the atom sequence match a prefix of `s`, and
with which remaining suffix?  Alternatives are tried greediest first. -/
def matchSeq : List (RAtom × RQuant) → List Char → Option (List Char)
  | [], s => some s
  | (a, q) :: rest, s => firstSome ((splits a q s).map (matchSeq rest))

/-- Try to match pattern `p` at the start of `s`.  Returns `none` when the
pattern does not match here, and otherwise the value of capture group 1
(which is `none` when the pattern has no group — the embedding of
`match.group(1)` raising `IndexError`).  In `PATTERNS` every capture group
is a final `(\d+)` preceded by atoms that match no digit, so taking the
greedy run for the group is faithful. -/
def tryAt (p : RPat) (s : List Char) : Option (Option String) :=
  match matchSeq p.elems s with
  | none => none
  | some s' =>
    match p.capture with
    | none => some none
    | some (a, q) =>
      let run := s'.takeWhile (atomMatches a)
      match q with
      | .plus => if run.isEmpty then none else some (some (String.mk run))
      | _ => some (some (String.mk run))

/-- `re.search`: try the pattern at each position, leftmost first. -/
def searchChars (p : RPat) : List Char → Option (Option String)
  | [] =>
    match tryAt p [] with
    | some cap => some cap
    | none => none
  | c :: t =>
    match tryAt p (c :: t) with
    | some cap => some cap
    | none => searchChars p t

/-- Does pattern `p` match anywhere in `code` (case-insensitively)? -/
def rmatches (p : RPat) (code : String) : Bool :=
  (searchChars p code.data).isSome

/-! ### Character-list counterparts of the Python string operations

The embeddings below avoid the byte-position-based `String` functions and
work on the character list directly, with the same semantics. -/

/-- Python `str.strip()`: drop whitespace from both ends. -/
def trimChars (s : List Char) : List Char :=
  ((s.dropWhile Char.isWhitespace).reverse.dropWhile Char.isWhitespace).reverse

/-- Python `str.strip()` on strings. -/
def strTrim (s : String) : String :=
  String.mk (trimChars s.data)

/-- Python `str.lower()` (ASCII, which covers every literal compared). -/
def strLower (s : String) : String :=
  String.mk (s.data.map Char.toLower)

/-- Prefix test used for Python's `pattern in url` / `":" in part`. -/
def listHasPre (pat s : List Char) : Bool :=
  match pat, s with
  | [], _ => true
  | _ :: _, [] => false
  | a :: ps, b :: ss => a == b && listHasPre ps ss

/-- Does `pat` occur as a contiguous sublist of `s`? -/
def listHasSub (pat s : List Char) : Bool :=
  match s with
  | [] => listHasPre pat []
  | _ :: t => listHasPre pat s || listHasSub pat t

/-- Python's `pat in s` on strings. -/
def strContains (s pat : String) : Bool :=
  listHasSub pat.data s.data

/-- Case-insensitive containment: `pat` occurs in `s` after lower-casing
both (used to state claims about `re.IGNORECASE` substring hints). -/
def strContainsCI (s pat : String) : Bool :=
  listHasSub (pat.data.map Char.toLower) (s.data.map Char.toLower)

/-- Leftmost non-overlapping split on a separator (Python `str.split(sep)`).
The fuel argument is instantiated with more than the list length, so the
zero-fuel case is unreachable. -/
def splitChars (sep : List Char) : Nat → List Char → List Char → List (List Char)
  | _, [], acc => [acc.reverse]
  | 0, s, acc => [acc.reverse ++ s]
  | fuel + 1, c :: rest, acc =>
    if listHasPre sep (c :: rest) && !sep.isEmpty then
      acc.reverse :: splitChars sep fuel ((c :: rest).drop sep.length) []
    else splitChars sep fuel rest (c :: acc)

/-- Python `s.split(sep)` on strings. -/
def splitStr (s sep : String) : List String :=
  (splitChars sep.data (s.data.length + 1) s.data []).map String.mk

/-- Python `str.format` applied to the templates of `PATTERNS`, which hold
the single positional placeholder `{0}` (written with its braces as
character codes 123 and 125): every occurrence is replaced by `param`. -/
def formatBound (param : List Char) : List Char → List Char
  | [] => []
  | [c] => [c]
  | [c, c0] => [c, c0]
  | c :: c0 :: c1 :: rest' =>
    if c = Char.ofNat 123 ∧ c0 = '0' ∧ c1 = Char.ofNat 125 then
      param ++ formatBound param rest'
    else c :: formatBound param (c0 :: c1 :: rest')

/-! ### The `PATTERNS` table of `rule_inferrer.py` -/

/-- A run of literal characters. -/
def lits (s : String) : List (RAtom × RQuant) :=
  s.data.map (fun c => (RAtom.lit c, RQuant.one))

/-- `n` copies of atom `a`, each matched exactly once (bounded repetition). -/
def rep (a : RAtom) (n : Nat) : List (RAtom × RQuant) :=
  List.replicate n (a, RQuant.one)

/-- One entry of the `PATTERNS` list. -/
structure PatternDef where
  type' : String
  patterns : List RPat
  /-- `description_template`, with the `{0}` placeholder written `\x7b0\x7d` -/
  description_template : Option String := none
  description : Option String := none
  confidence : String
  deriving DecidableEq, Repr

/-- The email category (`PATTERNS[0]`): `@.*\.`, `email`, `\\.+@\\.+`. -/
def emailDef : PatternDef :=
  { type' := "email"
    patterns :=
      [ ⟨lits "@" ++ [(.anyChar, .star)] ++ lits ".", none⟩
      , ⟨lits "email", none⟩
      , ⟨lits "\\" ++ [(.anyChar, .plus)] ++ lits "@\\" ++ [(.anyChar, .plus)], none⟩ ]
    description := some "Must be a valid email address"
    confidence := "high" }

/-- The url category: `https\?:` (the `?` is escaped, hence literal). -/
def urlDef : PatternDef :=
  { type' := "url"
    patterns := [⟨lits "https?:", none⟩]
    description := some "Must be a valid URL"
    confidence := "high" }

/-- The phone category: `\\d\{3\}[-.]\\d\{3\}[-.]\\d\{4\}`,
`\d{3}[-]\d{3}[-]\d{4}`, `phone`. -/
def phoneDef : PatternDef :=
  { type' := "phone"
    patterns :=
      [ ⟨lits "\\d\x7b3\x7d" ++ [(.oneOf ['-', '.'], .one)] ++ lits "\\d\x7b3\x7d"
          ++ [(.oneOf ['-', '.'], .one)] ++ lits "\\d\x7b4\x7d", none⟩
      , ⟨rep .digitCls 3 ++ [(.oneOf ['-'], .one)] ++ rep .digitCls 3
          ++ [(.oneOf ['-'], .one)] ++ rep .digitCls 4, none⟩
      , ⟨lits "phone", none⟩ ]
    description := some "Must be a valid phone number"
    confidence := "medium" }

/-- The numeric category: `isNaN\s*\(`, `Number\s*\(`, `parseInt\s*\(`,
`parseFloat\s*\(`, `\^\\d\+\$`. -/
def numericDef : PatternDef :=
  { type' := "numeric"
    patterns :=
      [ ⟨lits "isNaN" ++ [(.spaceCls, .star)] ++ lits "(", none⟩
      , ⟨lits "Number" ++ [(.spaceCls, .star)] ++ lits "(", none⟩
      , ⟨lits "parseInt" ++ [(.spaceCls, .star)] ++ lits "(", none⟩
      , ⟨lits "parseFloat" ++ [(.spaceCls, .star)] ++ lits "(", none⟩
      , ⟨lits "^\\d+$", none⟩ ]
    description := some "Must be a number"
    confidence := "high" }

/-- The min-length category: `\.length\s*<\s*(\d+)`, `\.length\s*>=\s*(\d+)`,
`minlength`. -/
def min_lengthDef : PatternDef :=
  { type' := "min_length"
    patterns :=
      [ ⟨lits ".length" ++ [(.spaceCls, .star)] ++ lits "<" ++ [(.spaceCls, .star)],
          some (.digitCls, .plus)⟩
      , ⟨lits ".length" ++ [(.spaceCls, .star)] ++ lits ">=" ++ [(.spaceCls, .star)],
          some (.digitCls, .plus)⟩
      , ⟨lits "minlength", none⟩ ]
    description_template := some "Must be at least \x7b0\x7d characters"
    confidence := "high" }

/-- The max-length category: `\.length\s*>\s*(\d+)`, `\.length\s*<=\s*(\d+)`,
`maxlength`. -/
def max_lengthDef : PatternDef :=
  { type' := "max_length"
    patterns :=
      [ ⟨lits ".length" ++ [(.spaceCls, .star)] ++ lits ">" ++ [(.spaceCls, .star)],
          some (.digitCls, .plus)⟩
      , ⟨lits ".length" ++ [(.spaceCls, .star)] ++ lits "<=" ++ [(.spaceCls, .star)],
          some (.digitCls, .plus)⟩
      , ⟨lits "maxlength", none⟩ ]
    description_template := some "Must be at most \x7b0\x7d characters"
    confidence := "high" }

/-- The required category: `===?\s*['\"][\s]*['\"]`, `===?\s*null`,
`===?\s*undefined`, `\.length\s*===?\s*0`, `!value`, `required`. -/
def requiredDef : PatternDef :=
  { type' := "required"
    patterns :=
      [ ⟨lits "==" ++ [(.lit '=', .opt), (.spaceCls, .star),
          (.oneOf [Char.ofNat 39, '"'], .one), (.spaceCls, .star),
          (.oneOf [Char.ofNat 39, '"'], .one)], none⟩
      , ⟨lits "==" ++ [(.lit '=', .opt), (.spaceCls, .star)] ++ lits "null", none⟩
      , ⟨lits "==" ++ [(.lit '=', .opt), (.spaceCls, .star)] ++ lits "undefined", none⟩
      , ⟨lits ".length" ++ [(.spaceCls, .star)] ++ lits "=="
          ++ [(.lit '=', .opt), (.spaceCls, .star)] ++ lits "0", none⟩
      , ⟨lits "!value", none⟩
      , ⟨lits "required", none⟩ ]
    description := some "Field is required"
    confidence := "high" }

/-- The generic pattern category: `/\^.*\$/`, `\.test\s*\(`, `\.match\s*\(`,
`RegExp\s*\(`. -/
def patternDef : PatternDef :=
  { type' := "pattern"
    patterns :=
      [ ⟨lits "/^" ++ [(.anyChar, .star)] ++ lits "$/", none⟩
      , ⟨lits ".test" ++ [(.spaceCls, .star)] ++ lits "(", none⟩
      , ⟨lits ".match" ++ [(.spaceCls, .star)] ++ lits "(", none⟩
      , ⟨lits "RegExp" ++ [(.spaceCls, .star)] ++ lits "(", none⟩ ]
    description := some "Must match a specific pattern"
    confidence := "low" }

/-- `PATTERNS` — the ordered category list (most specific first). -/
def PATTERNS : List PatternDef :=
  [emailDef, urlDef, phoneDef, numericDef, min_lengthDef, max_lengthDef,
   requiredDef, patternDef]

/-! ### `infer_validation_rule` -/

/-- `InferredRule` of `rule_inferrer.py`. -/
structure InferredRule where
  type' : String
  description : String
  confidence : Option String
  deriving DecidableEq, Repr

/-- The rule returned when the code is empty or nothing matches. -/
def unknownRule : InferredRule :=
  { type' := "unknown"
    description := "Could not determine validation rule"
    confidence := none }

/-- The inner loop: first sub-pattern of the category that matches decides;
returns the capture value of that sub-pattern. -/
def scanSubpatterns : List RPat → String → Option (Option String)
  | [], _ => none
  | p :: rest, code =>
    match searchChars p code.data with
    | some cap => some cap
    | none => scanSubpatterns rest code

/-- The outer loop: categories scanned in fixed order, first match wins. -/
def scanPatterns : List PatternDef → String → Option (PatternDef × Option String)
  | [], _ => none
  | pd :: rest, code =>
    match scanSubpatterns pd.patterns code with
    | some cap => some (pd, cap)
    | none => scanPatterns rest code

/-- Description construction: splice a captured bound into
`description_template` when available, otherwise fall back to the category's
`description` or to `"Validation rule: <type>"` (the embedding of the
`try/except (IndexError, AttributeError)` fallback). -/
def buildDescription (pd : PatternDef) (cap : Option String) : String :=
  match pd.description_template with
  | some tpl =>
    match cap with
    | some param => String.mk (formatBound param.data tpl.data)
    | none => pd.description.getD ("Validation rule: " ++ pd.type')
  | none => pd.description.getD ("Validation rule: " ++ pd.type')

/-- `infer_validation_rule` of `rule_inferrer.py`.  Python's
`not code or not code.strip()` is `code = "" ∨` every character of `code` is
whitespace. -/
def infer_validation_rule (code : String) : InferredRule :=
  if code = "" ∨ code.data.all Char.isWhitespace then unknownRule
  else
    match scanPatterns PATTERNS code with
    | some (pd, cap) =>
      { type' := pd.type'
        description := buildDescription pd cap
        confidence := some pd.confidence }
    | none => unknownRule

/-! ## `recorder/selector_generator.py` -/

/-- The element descriptor captured by the injected JavaScript
(`tag`, `id`, `classes`, `data-testid`, `aria-label`; absent attributes are
reported as `''`). -/
structure ElemInfo where
  tag : String := "div"
  id : String := ""
  classes : List String := []
  dataTestid : String := ""
  ariaLabel : String := ""
  deriving DecidableEq, Repr

/-- `_escape_selector_value`: first every backslash is doubled, then every
double quote is prefixed with a backslash.  The two sequential single-
character replacements touch disjoint characters and neither re-examines
its own output, so one pass over the characters is equivalent. -/
def escape_selector_value (value : String) : String :=
  String.mk ((value.data.map (fun c =>
    if c = '\\' then ['\\', '\\']
    else if c = '"' then ['\\', '"']
    else [c])).flatten)

/-- `generate_selector`: priority data-testid > id > aria-label > tag+classes
(fragile) > tag only (very fragile).  Python's `if v:` followed by
`v = v.strip(); if v:` is `v.trim ≠ ""`. -/
def generate_selector (e : ElemInfo) : String × Bool :=
  if strTrim e.dataTestid ≠ "" then
    ("[data-testid=\"" ++ escape_selector_value (strTrim e.dataTestid) ++ "\"]", false)
  else if strTrim e.id ≠ "" then
    ("#" ++ strTrim e.id, false)
  else if strTrim e.ariaLabel ≠ "" then
    (e.tag ++ "[aria-label=\"" ++ escape_selector_value (strTrim e.ariaLabel) ++ "\"]", false)
  else
    let classes := (e.classes.filter (fun c => strTrim c ≠ "")).map strTrim
    if classes ≠ [] then
      (e.tag ++ "." ++ String.intercalate "." classes, true)
    else
      (e.tag, true)

/-! ## `recorder/test_generator.py` data types -/

/-- The tagged union of `DOMChange`, `CSSChange` and `NetworkRequest`
(`DOMChange.text` defaults to `None` and is never set by the observer). -/
inductive ChangeRecord where
  | domChange (change_type : String) (selector : String) (text : Option String)
  | cssChange (selector : String) (property : String) (value : String)
  | networkRequest (method : String) (url_pattern : String)
  deriving DecidableEq, Repr

/-- `RecordedAction` of `recorder/test_generator.py`. -/
structure RecordedAction where
  action_type : String
  selector : String
  changes : List ChangeRecord
  value : Option String := none
  deriving DecidableEq, Repr

/-! ## `recorder/action_tracker.py` -/

/-- One entry of the browser-side `window.__actionTracker.actions` store. -/
structure RawTrackedAction where
  type' : String
  elementInfo : ElemInfo
  value : Option String := none
  deriving DecidableEq, Repr

/-- The `ActionTracker` state: the browser-side action store, in which
debounced entries have been overwritten with `null` (`none`). -/
structure TrackerState where
  actions : List (Option RawTrackedAction) := []
  deriving DecidableEq, Repr

/-- The action dict produced by `_fetch_and_convert_actions` (the `value`
key exists only for `fill` actions). -/
structure ActionDict where
  type' : String
  selector : String
  is_fragile : Bool
  value : Option String
  deriving DecidableEq, Repr

/-- `_fetch_and_convert_actions`: filter out `null` entries, then convert
each raw action via `generate_selector`; `value` defaults to `""` for
`fill` actions. -/
def fetch_and_convert_actions (t : TrackerState) : List ActionDict :=
  (t.actions.filterMap id).map (fun raw =>
    let sel := generate_selector raw.elementInfo
    { type' := raw.type'
      selector := sel.1
      is_fragile := sel.2
      value := if raw.type' = "fill" then some (raw.value.getD "") else none })

/-- `ActionTracker.get_actions`: returns the converted list and does not
modify the browser-side store. -/
def get_actions (t : TrackerState) : List ActionDict :=
  fetch_and_convert_actions t

/-! ## `recorder/change_observer.py` -/

/-- `IGNORED_TAGS`. -/
def IGNORED_TAGS : List String :=
  ["script", "style", "link", "meta", "noscript",
   "iframe",
   "time",
   "hr", "br",
   "svg", "path", "g", "circle", "rect", "line", "polygon", "polyline",
   "img",
   "source", "picture",
   "canvas",
   "slot",
   "faceplate-loader", "faceplate-partial", "shreddit-loading",
   "ac-track"]

/-- One entry of the browser-side `window.__mutations__` store, as consumed
through `mutation.get(...)` (hence the `Option` fields). -/
inductive RawMutation where
  | attributes (attributeName : Option String) (elementInfo : ElemInfo)
      (oldValue newValue : Option String)
  | childList (action : Option String) (elementInfo : ElemInfo)
  deriving DecidableEq, Repr

/-- A tracked network request (`{"method": ..., "url": ...}`). -/
structure NetReq where
  method : String
  url : String
  deriving DecidableEq, Repr

/-- The `ChangeObserver` state.  `mutations` is the browser-side
`window.__mutations__` store and `network_requests` the list filled by the
page's request callback; neither is cleared by `after_action`. -/
structure ObserverState where
  settle_timeout : Nat := 500
  only_stable_selectors : Bool := true
  max_changes_per_action : Nat := 10
  mutations : List RawMutation := []
  network_requests : List NetReq := []
  seen_selectors : List String := []
  seen_api_patterns : List String := []
  deriving DecidableEq, Repr

/-- `_extract_css_property`'s loop over `style_string.split(";")`: the first
part whose property name (before the first `:`) strips to `property_name`
decides; parts without a `:` are skipped. -/
def extractFromParts (property_name : String) : List String → String
  | [] => ""
  | part :: rest =>
    match splitStr part ":" with
    | [] => extractFromParts property_name rest
    | [_] => extractFromParts property_name rest
    | p :: vs =>
      if strTrim p = property_name then strTrim (String.intercalate ":" vs)
      else extractFromParts property_name rest

/-- `_extract_css_property`. -/
def extract_css_property (style_string : String) (property_name : String) : String :=
  if style_string = "" then ""
  else extractFromParts property_name (splitStr style_string ";")

/-- `_process_attribute_mutation`.  Returns the produced `CSSChange` (if
any) together with the updated `seen_selectors` state; the selector is
marked seen before the display comparison, exactly as in the source. -/
def process_attribute_mutation (st : ObserverState) (attributeName : Option String)
    (e : ElemInfo) (oldValue newValue : Option String) :
    Option ChangeRecord × ObserverState :=
  let tag := strLower e.tag
  if tag ∈ IGNORED_TAGS then (none, st)
  else if attributeName = some "style" then
    let sel := generate_selector e
    if st.only_stable_selectors && sel.2 then (none, st)
    else if sel.1 ∈ st.seen_selectors then (none, st)
    else
      let st' := { st with seen_selectors := sel.1 :: st.seen_selectors }
      let current_style := (newValue.getD "")
      let old_style := (oldValue.getD "")
      let current_display := extract_css_property current_style "display"
      let old_display := extract_css_property old_style "display"
      if current_display ≠ old_display then
        (some (.cssChange sel.1 "display"
          (if current_display = "" then "block" else current_display)), st')
      else (none, st')
  else (none, st)

/-- `_process_childlist_mutation`.  The `"filtered"` / `"duplicate"` string
results only feed log counters, so they are collapsed to `none` here. -/
def process_childlist_mutation (st : ObserverState) (action : Option String)
    (e : ElemInfo) : Option ChangeRecord × ObserverState :=
  let tag := strLower e.tag
  if tag ∈ IGNORED_TAGS then (none, st)
  else
    let sel := generate_selector e
    if st.only_stable_selectors && sel.2 then (none, st)
    else if sel.1 ∈ st.seen_selectors then (none, st)
    else
      let st' := { st with seen_selectors := sel.1 :: st.seen_selectors }
      match action with
      | some "added" => (some (.domChange "added" sel.1 none), st')
      | some "removed" => (some (.domChange "removed" sel.1 none), st')
      | _ => (none, st')

/-- The mutation-processing loop of `after_action`, threading the
deduplication state. -/
def processMutations (st : ObserverState) : List RawMutation → List ChangeRecord × ObserverState
  | [] => ([], st)
  | m :: rest =>
    let step := match m with
      | .attributes an e ov nv => process_attribute_mutation st an e ov nv
      | .childList a e => process_childlist_mutation st a e
    let tail := processMutations step.2 rest
    (match step.1 with
     | some c => c :: tail.1
     | none => tail.1, tail.2)

/-- `_is_api_request`. -/
def is_api_request (url : String) : Bool :=
  let url_lower := strLower url
  let exclude_patterns :=
    [".js", ".css", ".png", ".jpg", ".jpeg", ".gif", ".svg", ".ico",
     ".woff", ".woff2", ".ttf", ".eot", ".map",
     ".webp", ".avif", ".mp4", ".webm",
     "/static/", "/assets/", "/images/", "/fonts/",
     "google.com", "facebook.com", "twitter.com", "analytics",
     "recaptcha", "captcha", "tracking", "beacon",
     "preview.redd.it", "external-preview.redd.it",
     "styles.redditmedia.com", "www.redditstatic.com",
     "emoji.redditmedia.com",
     "w3-reporting.reddit.com",
     "alb.reddit.com",
     "/svc/shreddit/events",
     "/svc/shreddit/trending",
     "/svc/shreddit/graphql"]
  if exclude_patterns.any (fun p => strContains url_lower p) then false
  else
    let include_patterns := ["/api/", "search", "httpbin.org"]
    if include_patterns.any (fun p => strContains url_lower p) then true
    else
      let api_path_patterns := ["/json", "/get", "/post", "/data", "/query"]
      api_path_patterns.any (fun p => strContains url_lower p)

/-- `_extract_api_pattern`: strip the query string; for `/api/` URLs keep
`/api/` plus the segment after the first occurrence (`url.split("/api/")[1]`). -/
def extract_api_pattern (url : String) : String :=
  let url := if strContains url "?" then ((splitStr url "?").headD url) else url
  if strContains url "/api/" then
    "/api/" ++ (((splitStr url "/api/").drop 1).headD "")
  else url

/-- The network-request loop of `after_action`: keep API-looking requests,
deduplicated by `method:pattern`. -/
def processNetwork (st : ObserverState) : List NetReq → List ChangeRecord × ObserverState
  | [] => ([], st)
  | req :: rest =>
    if is_api_request req.url then
      let pattern := extract_api_pattern req.url
      let dedup_key := req.method ++ ":" ++ pattern
      if dedup_key ∈ st.seen_api_patterns then processNetwork st rest
      else
        let st' := { st with seen_api_patterns := dedup_key :: st.seen_api_patterns }
        let tail := processNetwork st' rest
        (.networkRequest req.method pattern :: tail.1, tail.2)
    else processNetwork st rest

/-- `ChangeObserver.after_action`: wait for the settle timeout (a no-op in
the model), process the accumulated mutations, truncate the DOM/CSS list to
`max_changes_per_action`, then append the deduplicated API requests. -/
def after_action (st : ObserverState) : List ChangeRecord × ObserverState :=
  let processed := processMutations st st.mutations
  let dom_css_changes :=
    if processed.1.length > st.max_changes_per_action then
      processed.1.take st.max_changes_per_action
    else processed.1
  let net := processNetwork processed.2 st.network_requests
  (dom_css_changes ++ net.1, net.2)

/-! ## `recorder/session.py` -/

/-- The error named by the specification for a finalize on a session that
was not started.  The source module defines no such exception; the
constructor exists so that the failure claim is statable against
`process_pending_actions`. -/
inductive RecError where
  | notInitializedError
  deriving DecidableEq, Repr

/-- The mutable aggregate of `RecordingSession`: the two collaborators
(`none` before `start`) and the growing finalized list. -/
structure SessionState where
  tracker : Option TrackerState := none
  observer : Option ObserverState := none
  recorded_actions : List RecordedAction := []
  deriving DecidableEq, Repr

/-- The `for i, action_data in enumerate(actions)` loop body of
`process_pending_actions`: one `RecordedAction` per action dict, the action
at index 0 receiving `all_changes` and every other action `[]`. -/
def buildRecorded (all_changes : List ChangeRecord) : Nat → List ActionDict → List RecordedAction
  | _, [] => []
  | i, a :: rest =>
    { action_type := a.type'
      selector := a.selector
      changes := if i = 0 then all_changes else []
      value := a.value } :: buildRecorded all_changes (i + 1) rest

/-- `RecordingSession.process_pending_actions`.  When the tracker or the
observer is unavailable the source logs a warning and returns — it raises
nothing — so no `Except.error` is produced on any path. -/
def process_pending_actions (s : SessionState) : Except RecError SessionState :=
  match s.tracker, s.observer with
  | some t, some o =>
    let actions := get_actions t
    if actions.isEmpty then .ok s
    else
      let drained := after_action o
      .ok { s with
            observer := some drained.2
            recorded_actions := s.recorded_actions ++ buildRecorded drained.1 0 actions }
  | _, _ => .ok s

/-- `RecordingSession.get_recorded_actions`. -/
def get_recorded_actions (s : SessionState) : List RecordedAction :=
  s.recorded_actions

/-! ## `listener_extractor.py`

The CDP plumbing (element handles, `DOMDebugger.getEventListeners`,
`Debugger.getScriptSource`) is abstracted: each page element carries the
listener data those calls would return. -/

/-- One listener entry as returned by CDP: its event `type` and the code
snippet the brace-counting extraction recovers from the script source
(`none` when no source or no matching `addEventListener` line was found). -/
structure CapturedListener where
  type' : String
  codePart : Option String := none
  deriving DecidableEq, Repr

/-- An input element matched by `'input, textarea, select,
[contenteditable="true"]'`, with the data the page evaluation returns
(JavaScript `el.x || null` yields `none` or a non-empty string). -/
structure PageElement where
  tag : String
  inputType : Option String := none
  name : Option String := none
  id : Option String := none
  placeholder : Option String := none
  attributes : List (String × String) := []
  listeners : List CapturedListener := []
  deriving DecidableEq, Repr

/-- `ListenerInfo` of `listener_extractor.py`. -/
structure ListenerInfo where
  selector : String
  tag : String
  events : List String
  code : String
  input_type : Option String := none
  name : Option String := none
  id : Option String := none
  placeholder : Option String := none
  attributes : List (String × String) := []
  deriving DecidableEq, Repr

/-- Python truthiness of an optional string (`if info["id"]:`). -/
def optTruthy : Option String → Bool
  | some v => v ≠ ""
  | none => false

/-- The selector built in `extract_listeners`: `tag`, plus `#id` when the id
is truthy, else `[name="..."]` when the name is truthy. -/
def buildListenerSelector (el : PageElement) : String :=
  if optTruthy el.id then el.tag ++ "#" ++ (el.id.getD "")
  else if optTruthy el.name then el.tag ++ "[name=\"" ++ (el.name.getD "") ++ "\"]"
  else el.tag

/-- `extract_listeners`: elements whose CDP listener list is empty are
skipped (`if not listeners: continue`); event types are collected when
truthy; elements whose collected `events` list is empty are skipped
(`if events:`); `events` is deduplicated (`list(set(events))`, modelled
keeping first occurrences) and the code parts joined with `"\n\n"`. -/
def extract_listeners (elements : List PageElement) : List ListenerInfo :=
  elements.filterMap (fun el =>
    if el.listeners.isEmpty then none
    else
      let events := el.listeners.filterMap
        (fun l => if l.type' = "" then none else some l.type')
      let code_parts := el.listeners.filterMap (fun l => l.codePart)
      if events.isEmpty then none
      else some
        { selector := buildListenerSelector el
          tag := el.tag
          events := events.eraseDups
          code := if code_parts.isEmpty then "[code not extractable]"
                  else String.intercalate "\n\n" code_parts
          input_type := el.inputType
          name := el.name
          id := el.id
          placeholder := el.placeholder
          attributes := el.attributes })

/-! ## `models.py` and `analyzer.py` -/

/-- `ElementInfo` of `models.py`. -/
structure ElementInfo where
  selector : String
  tag : String
  type' : Option String := none
  name : Option String := none
  id : Option String := none
  placeholder : Option String := none
  attributes : List (String × String) := []
  deriving DecidableEq, Repr

/-- `ValidationInfo` of `models.py`. -/
structure ValidationInfo where
  type' : String
  raw_code : String
  rule_description : Option String := none
  confidence : Option String := none
  deriving DecidableEq, Repr

/-- `ErrorDisplay` of `models.py`. -/
structure ErrorDisplay where
  method : String
  selector : Option String := none
  sample_message : Option String := none
  deriving DecidableEq, Repr

/-- `Interaction` of `models.py`. -/
structure Interaction where
  element : ElementInfo
  triggers : List String
  validation : ValidationInfo
  error_display : Option ErrorDisplay := none
  examples : Option (List (String × List String)) := none
  deriving DecidableEq, Repr

/-- `AnalysisError` of `models.py`. -/
structure AnalysisError where
  element : Option String
  error : String
  phase : String
  deriving DecidableEq, Repr

/-- `AnalysisResult` of `models.py`. -/
structure AnalysisResult where
  url : String
  analyzed_at : String
  errors : List AnalysisError
  interactions : List Interaction
  deriving DecidableEq, Repr

/-- The per-listener body of the `analyze_page` loop: infer the rule from
the listener code and assemble the `Interaction`.  Every operation in the
`try` block is total, so the `except` path that would append an
`extraction` error is unreachable in the embedding. -/
def interactionOfListener (li : ListenerInfo) : Interaction :=
  let rule := infer_validation_rule li.code
  { element :=
      { selector := li.selector
        tag := li.tag
        type' := li.input_type
        name := li.name
        id := li.id
        placeholder := li.placeholder
        attributes := li.attributes }
    triggers := li.events
    validation :=
      { type' := rule.type'
        raw_code := li.code
        rule_description := if rule.type' ≠ "unknown" then some rule.description else none
        confidence := rule.confidence } }

/-- `analyze_page` on the success path (page loaded, listeners extracted):
one `Interaction` per extracted listener, no errors. -/
def analyze_page (url : String) (analyzed_at : String)
    (elements : List PageElement) : AnalysisResult :=
  { url := url
    analyzed_at := analyzed_at
    errors := []
    interactions := (extract_listeners elements).map interactionOfListener }

/-! ## JSON serialization (`AnalysisResult.to_dict`)

`to_dict` produces only strings, nulls, arrays and string-keyed objects, so
the JSON tree type needs no other constructors.  `to_json` is
`json.dumps` of this tree and parsing is `json.loads`; both belong to the
Python standard library (external collaborators) and compose to the
identity on the tree. -/

/-- A JSON value as produced by `AnalysisResult.to_dict`. -/
inductive Json where
  | null
  | str (s : String)
  | arr (xs : List Json)
  | obj (fields : List (String × Json))
  deriving Repr

/-- Is this JSON value `null`? -/
def Json.isNull : Json → Bool
  | .null => true
  | _ => false

/-- An optional string as a JSON value (`asdict` keeps `None` as `null`). -/
def jOpt : Option String → Json
  | some v => .str v
  | none => .null

/-- `dataclasses.asdict` on `ElementInfo`. -/
def elementInfoDict (e : ElementInfo) : Json :=
  .obj [("selector", .str e.selector), ("tag", .str e.tag),
        ("type", jOpt e.type'), ("name", jOpt e.name), ("id", jOpt e.id),
        ("placeholder", jOpt e.placeholder),
        ("attributes", .obj (e.attributes.map (fun kv => (kv.1, .str kv.2))))]

/-- `dataclasses.asdict` on `ValidationInfo` (before `None` filtering). -/
def validationDict (v : ValidationInfo) : Json :=
  .obj [("type", .str v.type'), ("raw_code", .str v.raw_code),
        ("rule_description", jOpt v.rule_description),
        ("confidence", jOpt v.confidence)]

/-- `dataclasses.asdict` on `ErrorDisplay` (before `None` filtering). -/
def errorDisplayDict (d : ErrorDisplay) : Json :=
  .obj [("method", .str d.method), ("selector", jOpt d.selector),
        ("sample_message", jOpt d.sample_message)]

/-- `dataclasses.asdict` on `AnalysisError`. -/
def analysisErrorDict (e : AnalysisError) : Json :=
  .obj [("element", jOpt e.element), ("error", .str e.error),
        ("phase", .str e.phase)]

/-- Drop the `null`-valued fields of an object's field list
(`{k: v for k, v in d.items() if v is not None}`). -/
def dropNullFields (fields : List (String × Json)) : List (String × Json) :=
  fields.filter (fun kv => !kv.2.isNull)

/-- `AnalysisResult._interaction_to_dict`. -/
def interaction_to_dict (i : Interaction) : Json :=
  let base :=
    [("element", elementInfoDict i.element),
     ("triggers", .arr (i.triggers.map .str)),
     ("validation",
       match validationDict i.validation with
       | .obj fs => Json.obj (dropNullFields fs)
       | j => j)]
  let withDisplay :=
    match i.error_display with
    | some d =>
      base ++ [("error_display",
        match errorDisplayDict d with
        | .obj fs => Json.obj (dropNullFields fs)
        | j => j)]
    | none => base
  let withExamples :=
    match i.examples with
    | some ex => withDisplay ++
        [("examples", .obj (ex.map (fun kv => (kv.1, Json.arr (kv.2.map .str)))))]
    | none => withDisplay
  .obj withExamples

/-- `AnalysisResult.to_dict`. -/
def to_dict (a : AnalysisResult) : Json :=
  .obj [("url", .str a.url),
        ("analyzed_at", .str a.analyzed_at),
        ("errors", .arr (a.errors.map analysisErrorDict)),
        ("interactions", .arr (a.interactions.map interaction_to_dict))]

/-- Field lookup in a JSON object. -/
def jGet (j : Json) (k : String) : Option Json :=
  match j with
  | .obj fields => (fields.find? (fun kv => kv.1 == k)).map Prod.snd
  | _ => none

/-- Array element lookup in a JSON value. -/
def jAt (j : Json) (i : Nat) : Option Json :=
  match j with
  | .arr xs => xs.get? i
  | _ => none

/-- Is a change record a network request (as opposed to a DOM/CSS change)? -/
def ChangeRecord.isNetwork : ChangeRecord → Bool
  | .networkRequest _ _ => true
  | _ => false

/-! ## Concrete example inputs used by witnesses -/

/-- A tracker whose browser-side store holds one click on `#btn` and one
debounced (null) entry. -/
def trackerEx : TrackerState :=
  { actions := [some { type' := "click", elementInfo := { tag := "button", id := "btn" } },
                none,
                some { type' := "fill", elementInfo := { tag := "input", id := "user" },
                       value := some "alice" }] }

/-- An observer that accumulated one DOM addition and one API request. -/
def observerEx : ObserverState :=
  { settle_timeout := 200
    mutations := [.childList (some "added") { tag := "div", id := "panel" }]
    network_requests := [{ method := "POST", url := "https://site.test/api/v1/save" }] }

/-- A started session with the two stores above and nothing recorded yet. -/
def sessionEx : SessionState :=
  { tracker := some trackerEx, observer := some observerEx }

/-- A session whose tracker was never started. -/
def sessionNoTracker : SessionState :=
  { tracker := none
    observer := some { settle_timeout := 200 }
    recorded_actions := [{ action_type := "click", selector := "#old", changes := [] }] }

/-- A started session with a single captured click and one observed DOM
addition, used to evaluate a repeated finalize. -/
def sessionOnce : SessionState :=
  { tracker := some { actions := [some { type' := "click",
                                         elementInfo := { tag := "button", id := "btn" } }] }
    observer := some { settle_timeout := 200
                       mutations := [.childList (some "added")
                                      { tag := "div", id := "panel" }] } }

/-- An observer with twelve pending DOM additions, an API request and a cap
of three changes per action. -/
def observerCapEx : ObserverState :=
  { settle_timeout := 200
    max_changes_per_action := 3
    mutations := (List.range 12).map (fun i =>
      .childList (some "added") { tag := "div", id := "panel" ++ toString i })
    network_requests := [{ method := "GET", url := "https://site.test/api/v1/items" }] }

/-- Two page elements: one input with a blur listener, one without any
listener. -/
def elementsEx : List PageElement :=
  [ { tag := "input", id := some "mail", inputType := some "text"
      listeners := [{ type' := "blur", codePart := some "function(e) \x7b return x \x7d" }] }
  , { tag := "select", name := some "country", listeners := [] } ]

/-- An analysis result with one interaction whose validation has a `null`
rule description and a non-`null` confidence. -/
def analysisEx : AnalysisResult :=
  { url := "https://example.test/"
    analyzed_at := "2026-01-01T00:00:00+00:00"
    errors := [{ element := none, error := "boom", phase := "extraction" }]
    interactions :=
      [{ element := { selector := "input#mail", tag := "input" }
         triggers := ["blur"]
         validation := { type' := "unknown", raw_code := "snippet"
                         rule_description := none, confidence := some "high" } }] }

/-! ## Helper lemmas about the matching engine -/

theorem firstSome_singleton (o : Option α) : firstSome [o] = o := by
  cases o <;> rfl

/-- A run of literal atoms consumes exactly the corresponding characters,
up to case folding. -/
theorem matchSeq_lits (w : List Char) (s t : List Char)
    (h : s.map Char.toLower = w.map Char.toLower ++ t) :
    matchSeq (w.map (fun c => (RAtom.lit c, RQuant.one))) s = some (s.drop w.length) := by
  induction w generalizing s t with
  | nil => simp [matchSeq]
  | cons c w' ih =>
    cases s with
    | nil => simp at h
    | cons x s' =>
      simp only [List.map_cons, List.cons_append, List.cons.injEq] at h
      obtain ⟨h1, h2⟩ := h
      simp only [List.map_cons, matchSeq, splits, atomMatches, h1, beq_self_eq_true,
        if_pos, List.map_cons, List.map_nil]
      rw [firstSome_singleton, ih s' t h2]
      simp

/-- A successful match at some start position survives prepending characters
to the search string. -/
theorem searchChars_append_isSome (p : RPat) (pre s : List Char)
    (h : (tryAt p s).isSome) : (searchChars p (pre ++ s)).isSome := by
  induction pre with
  | nil =>
    rw [List.nil_append]
    cases s with
    | nil =>
      cases htry : tryAt p [] with
      | some cap => simp [searchChars, htry]
      | none => rw [htry] at h; simp at h
    | cons c t =>
      cases htry : tryAt p (c :: t) with
      | some cap => simp [searchChars, htry]
      | none => rw [htry] at h; simp at h
  | cons x pre' ih =>
    rw [List.cons_append]
    cases htry : tryAt p (x :: (pre' ++ s)) with
    | some cap => simp [searchChars, htry]
    | none => simpa [searchChars, htry] using ih

/-- When a pattern opens with a mandatory literal, any successful search
pinpoints a character of the string that case-folds to that literal. -/
theorem searchChars_head_lit (c : Char) (rest : List (RAtom × RQuant))
    (cap : Option (RAtom × RQuant)) (s : List Char)
    (h : (searchChars ⟨(RAtom.lit c, RQuant.one) :: rest, cap⟩ s).isSome) :
    ∃ x ∈ s, x.toLower = c.toLower := by
  induction s with
  | nil =>
    exfalso
    have htry : tryAt ⟨(RAtom.lit c, RQuant.one) :: rest, cap⟩ [] = none := by
      rw [tryAt]
      have : matchSeq ((RAtom.lit c, RQuant.one) :: rest) [] = none := by
        simp [matchSeq, splits, firstSome]
      rw [this]
    rw [searchChars, htry] at h
    simp at h
  | cons x t ih =>
    rw [searchChars] at h
    cases htry : tryAt ⟨(RAtom.lit c, RQuant.one) :: rest, cap⟩ (x :: t) with
    | some cp =>
      have hm : (matchSeq ((RAtom.lit c, RQuant.one) :: rest) (x :: t)).isSome := by
        rw [tryAt] at htry
        cases hms : matchSeq ((RAtom.lit c, RQuant.one) :: rest) (x :: t) with
        | none => rw [hms] at htry; simp at htry
        | some _ => simp
      by_cases hx : atomMatches (RAtom.lit c) x = true
      · refine ⟨x, List.mem_cons_self x t, ?_⟩
        simpa [atomMatches] using hx
      · exfalso
        rw [matchSeq, splits] at hm
        simp only [Bool.not_eq_true] at hx
        rw [if_neg (by simp [hx])] at hm
        simp [firstSome] at hm
    | none =>
      rw [htry] at h
      obtain ⟨x', hx', hlow⟩ := ih h
      exact ⟨x', List.mem_cons_of_mem _ hx', hlow⟩

/-- A whitespace character is one of space, tab, carriage return, newline. -/
theorem whitespace_cases (c : Char) (h : c.isWhitespace = true) :
    c = ' ' ∨ c = '\t' ∨ c = '\r' ∨ c = '\n' := by
  simp only [Char.isWhitespace, Bool.or_eq_true, decide_eq_true_eq] at h
  tauto

/-- None of the characters a whitespace-only string can hold case-folds to
one of the mandatory opening literals of the email sub-patterns. -/
theorem whitespace_toLower_ne (c : Char) (h : c.isWhitespace = true)
    (d : Char) (hd : d = '@' ∨ d = 'e' ∨ d = '\\') : c.toLower ≠ d.toLower := by
  rcases whitespace_cases c h with rfl | rfl | rfl | rfl <;>
    rcases hd with rfl | rfl | rfl <;> decide

/-- If some sub-pattern of the list matches, the inner scan loop succeeds. -/
theorem scanSubpatterns_isSome (ps : List RPat) (code : String)
    (h : ∃ p ∈ ps, rmatches p code = true) :
    ∃ cap, scanSubpatterns ps code = some cap := by
  induction ps with
  | nil => obtain ⟨p, hp, _⟩ := h; simp at hp
  | cons q ps' ih =>
    rw [scanSubpatterns]
    cases hq : searchChars q code.data with
    | some cap => exact ⟨cap, rfl⟩
    | none =>
      obtain ⟨p, hp, hm⟩ := h
      rcases List.mem_cons.mp hp with rfl | hp'
      · rw [rmatches, hq] at hm; simp at hm
      · exact ih ⟨p, hp', hm⟩

/-- If an email sub-pattern matches, the code is neither empty nor
whitespace-only. -/
theorem email_match_not_blank (code : String)
    (h : ∃ p ∈ emailDef.patterns, rmatches p code = true) :
    ¬(code = "" ∨ code.data.all Char.isWhitespace) := by
  obtain ⟨p, hp, hm⟩ := h
  have hlit : ∃ d, (d = '@' ∨ d = 'e' ∨ d = '\\') ∧
      ∃ x ∈ code.data, x.toLower = d.toLower := by
    simp only [emailDef, List.mem_cons, List.mem_singleton] at hp
    rcases hp with rfl | rfl | rfl | h'
    · exact ⟨'@', Or.inl rfl, searchChars_head_lit _ _ _ _ hm⟩
    · exact ⟨'e', Or.inr (Or.inl rfl), searchChars_head_lit _ _ _ _ hm⟩
    · exact ⟨'\\', Or.inr (Or.inr rfl), searchChars_head_lit _ _ _ _ hm⟩
    · simp at h'
  obtain ⟨d, hd, x, hx, hlow⟩ := hlit
  rintro (hempty | hws)
  · rw [hempty] at hx; simp at hx
  · exact whitespace_toLower_ne x (by simpa using List.all_eq_true.mp hws x hx) d hd hlow

/-- When the code is non-blank and an email sub-pattern matches, the
cascade returns the email rule (email is the first category scanned). -/
theorem infer_of_email_match (code : String)
    (h : ∃ p ∈ emailDef.patterns, rmatches p code = true) :
    ∃ cap, infer_validation_rule code =
      { type' := "email"
        description := buildDescription emailDef cap
        confidence := some "high" } := by
  obtain ⟨cap, hsub⟩ := scanSubpatterns_isSome emailDef.patterns code h
  refine ⟨cap, ?_⟩
  rw [infer_validation_rule, if_neg (email_match_not_blank code h)]
  rw [show PATTERNS = emailDef :: [urlDef, phoneDef, numericDef, min_lengthDef,
    max_lengthDef, requiredDef, patternDef] from rfl]
  rw [scanPatterns, hsub]
  rfl

/-- A successful prefix test decomposes the list. -/
theorem listHasPre_exists (pat s : List Char) (h : listHasPre pat s = true) :
    ∃ t, s = pat ++ t := by
  induction pat generalizing s with
  | nil => exact ⟨s, rfl⟩
  | cons a ps ih =>
    cases s with
    | nil => simp [listHasPre] at h
    | cons b ss =>
      rw [listHasPre, Bool.and_eq_true] at h
      obtain ⟨hab, hrest⟩ := h
      obtain ⟨t, ht⟩ := ih ss hrest
      exact ⟨t, by rw [List.cons_append, ← ht, eq_of_beq hab]⟩

/-- A successful substring test decomposes the list around the pattern. -/
theorem listHasSub_exists (pat s : List Char) (h : listHasSub pat s = true) :
    ∃ pre t, s = pre ++ pat ++ t := by
  induction s with
  | nil =>
    rw [listHasSub] at h
    obtain ⟨t, ht⟩ := listHasPre_exists pat [] h
    exact ⟨[], t, by simpa using ht⟩
  | cons x ss ih =>
    rw [listHasSub, Bool.or_eq_true] at h
    rcases h with h | h
    · obtain ⟨t, ht⟩ := listHasPre_exists pat (x :: ss) h
      exact ⟨[], t, by simpa using ht⟩
    · obtain ⟨pre, t, ht⟩ := ih h
      exact ⟨x :: pre, t, by simp [ht]⟩

/-! ## Claim theorems for the Validation Rule Inferrer -/

/-- C5: `infer_validation_rule` is total by construction, and empty or
whitespace-only input deterministically yields the unknown rule with
absent (`none`) confidence. -/
theorem infer_blank_unknown (code : String)
    (h : code = "" ∨ code.data.all Char.isWhitespace) :
    infer_validation_rule code =
      { type' := "unknown"
        description := "Could not determine validation rule"
        confidence := none } := by
  rw [infer_validation_rule, if_pos h]
  rfl

/-- Witness for C5 at the two inputs named by the specification. -/
theorem infer_blank_unknown_witness :
    infer_validation_rule "" =
      { type' := "unknown"
        description := "Could not determine validation rule"
        confidence := none } ∧
    infer_validation_rule "   " =
      { type' := "unknown"
        description := "Could not determine validation rule"
        confidence := none } :=
  ⟨infer_blank_unknown "" (Or.inl rfl), infer_blank_unknown "   " (Or.inr (by decide))⟩

/-- C4: on any snippet matched by both an email sub-pattern and a
min-length sub-pattern, the cascade classifies as email, never min_length,
because the email category is scanned first. -/
theorem infer_email_beats_min_length (code : String)
    (hemail : ∃ p ∈ emailDef.patterns, rmatches p code = true)
    (_hmin : ∃ p ∈ min_lengthDef.patterns, rmatches p code = true) :
    (infer_validation_rule code).type' = "email" ∧
    (infer_validation_rule code).type' ≠ "min_length" := by
  obtain ⟨cap, hr⟩ := infer_of_email_match code hemail
  have htype : (infer_validation_rule code).type' = "email" := by rw [hr]
  refine ⟨htype, ?_⟩
  rw [htype]
  decide

/-- Witness for C4: a snippet matching the literal email hint and the
captured min-length bound check. -/
theorem infer_email_beats_min_length_witness :
    (∃ p ∈ emailDef.patterns, rmatches p "email.length < 5" = true) ∧
    (∃ p ∈ min_lengthDef.patterns, rmatches p "email.length < 5" = true) ∧
    (infer_validation_rule "email.length < 5").type' = "email" ∧
    (infer_validation_rule "email.length < 5").type' ≠ "min_length" := by
  refine ⟨by decide, by decide, ?_⟩
  exact infer_email_beats_min_length "email.length < 5" (by decide) (by decide)

/-- C9: any input containing the substring "email" (case-insensitively)
classifies as email with high confidence, via the bare `email` sub-pattern
of the first-scanned category. -/
theorem infer_email_substring (code : String)
    (h : strContainsCI code "email" = true) :
    (infer_validation_rule code).type' = "email" ∧
    (infer_validation_rule code).confidence = some "high" := by
  rw [strContainsCI] at h
  obtain ⟨pre, t, hdec⟩ := listHasSub_exists _ _ h
  have hlower : "email".data.map Char.toLower = "email".data := by decide
  rw [hlower] at hdec
  -- the matched occurrence pins down a character that lowers to 'e'
  have hmem : 'e' ∈ code.data.map Char.toLower := by
    rw [hdec]
    exact List.mem_append.mpr (Or.inl (List.mem_append.mpr (Or.inr (by decide))))
  obtain ⟨x, hx, hxe⟩ := List.mem_map.mp hmem
  -- the bare `email` sub-pattern matches at position `pre.length`
  have hdrop : (code.data.drop pre.length).map Char.toLower =
      "email".data.map Char.toLower ++ t := by
    rw [hlower, List.map_drop, hdec, List.append_assoc, List.drop_left]
  have hms := matchSeq_lits "email".data (code.data.drop pre.length) t hdrop
  have htry : (tryAt ⟨lits "email", none⟩ (code.data.drop pre.length)).isSome := by
    rw [tryAt]
    rw [show lits "email" = "email".data.map (fun c => (RAtom.lit c, RQuant.one)) from rfl]
    rw [hms]
    rfl
  have hsearch : (searchChars ⟨lits "email", none⟩ code.data).isSome := by
    have := searchChars_append_isSome ⟨lits "email", none⟩
      (code.data.take pre.length) (code.data.drop pre.length) htry
    rwa [List.take_append_drop] at this
  have hemail : ∃ p ∈ emailDef.patterns, rmatches p code = true := by
    refine ⟨⟨lits "email", none⟩, ?_, ?_⟩
    · simp [emailDef]
    · rw [rmatches, hsearch]
  obtain ⟨cap, hr⟩ := infer_of_email_match code hemail
  rw [hr]
  exact ⟨rfl, rfl⟩

/-- Witness for C9: an identifier containing "Email" but no `@` and no
email-shaped regex fragment. -/
theorem infer_email_substring_witness :
    strContainsCI "validateEmailField(x)" "email" = true ∧
    (infer_validation_rule "validateEmailField(x)").type' = "email" ∧
    (infer_validation_rule "validateEmailField(x)").confidence = some "high" :=
  ⟨by decide, infer_email_substring "validateEmailField(x)" (by decide)⟩

/-! ## Helper lemmas about the scan loops and capture groups -/

/-- The winning category of the outer scan is a member of the scanned list,
and its capture value is what its own sub-pattern scan produced. -/
theorem scanPatterns_sub (ps : List PatternDef) (code : String)
    (pd : PatternDef) (cap : Option String)
    (h : scanPatterns ps code = some (pd, cap)) :
    pd ∈ ps ∧ scanSubpatterns pd.patterns code = some cap := by
  induction ps with
  | nil => simp [scanPatterns] at h
  | cons q rest ih =>
    rw [scanPatterns] at h
    cases hq : scanSubpatterns q.patterns code with
    | some c =>
      rw [hq] at h
      simp only [Option.some.injEq, Prod.mk.injEq] at h
      obtain ⟨rfl, rfl⟩ := h
      exact ⟨List.mem_cons_self q rest, hq⟩
    | none =>
      rw [hq] at h
      obtain ⟨hmem, hsub⟩ := ih h
      exact ⟨List.mem_cons_of_mem q hmem, hsub⟩

/-- The inner scan's result comes from some sub-pattern of the list. -/
theorem scanSubpatterns_source (ps : List RPat) (code : String) (cap : Option String)
    (h : scanSubpatterns ps code = some cap) :
    ∃ p ∈ ps, searchChars p code.data = some cap := by
  induction ps with
  | nil => simp [scanSubpatterns] at h
  | cons p rest ih =>
    rw [scanSubpatterns] at h
    cases hp : searchChars p code.data with
    | some c =>
      rw [hp] at h
      simp only [Option.some.injEq] at h
      exact ⟨p, List.mem_cons_self p rest, by rw [hp, h]⟩
    | none =>
      rw [hp] at h
      obtain ⟨p', hp', hs⟩ := ih h
      exact ⟨p', List.mem_cons_of_mem p hp', hs⟩

/-- A successful search is a successful anchored try at some position. -/
theorem searchChars_tryAt_source (p : RPat) (s : List Char) (cap : Option String)
    (h : searchChars p s = some cap) :
    ∃ s₀, tryAt p s₀ = some cap := by
  induction s with
  | nil =>
    rw [searchChars] at h
    cases htry : tryAt p [] with
    | some c =>
      rw [htry] at h
      dsimp only at h
      exact ⟨[], htry.trans h⟩
    | none =>
      rw [htry] at h
      dsimp only at h
      exact Option.noConfusion h
  | cons c t ih =>
    rw [searchChars] at h
    cases htry : tryAt p (c :: t) with
    | some c' =>
      rw [htry] at h
      dsimp only at h
      exact ⟨c :: t, htry.trans h⟩
    | none =>
      rw [htry] at h
      dsimp only at h
      exact ih h

/-- A pattern without a capture group never reports a captured value. -/
theorem tryAt_capture_none (p : RPat) (s : List Char) (cap : Option String)
    (hc : p.capture = none) (h : tryAt p s = some cap) : cap = none := by
  rw [tryAt, hc] at h
  cases hms : matchSeq p.elems s with
  | none => rw [hms] at h; exact Option.noConfusion h
  | some s' =>
    rw [hms] at h
    simpa using h.symm

/-- A `(\d+)` capture group reports a non-empty string of digits. -/
theorem tryAt_capture_digits (p : RPat) (s : List Char) (param : String)
    (hc : p.capture = some (RAtom.digitCls, RQuant.plus))
    (h : tryAt p s = some (some param)) :
    param ≠ "" ∧ param.data.all Char.isDigit := by
  rw [tryAt, hc] at h
  cases hms : matchSeq p.elems s with
  | none => rw [hms] at h; exact Option.noConfusion h
  | some s' =>
    rw [hms] at h
    dsimp only at h
    by_cases hrun : (s'.takeWhile (atomMatches RAtom.digitCls)).isEmpty = true
    · rw [if_pos hrun] at h; exact Option.noConfusion h
    · rw [if_neg hrun] at h
      simp only [Option.some.injEq] at h
      constructor
      · rw [← h]
        intro hcontra
        have hdata : s'.takeWhile (atomMatches RAtom.digitCls) = [] :=
          congrArg String.data hcontra
        rw [hdata] at hrun
        exact hrun rfl
      · rw [← h]
        refine List.all_eq_true.mpr fun x hx => ?_
        have := List.mem_takeWhile_imp hx
        simpa [atomMatches] using this

/-- The pattern is a prefix of itself followed by anything. -/
theorem listHasPre_append_self (pat t : List Char) :
    listHasPre pat (pat ++ t) = true := by
  induction pat with
  | nil => rfl
  | cons a ps ih => simp [listHasPre, ih]

/-- A list contains any pattern it is built around. -/
theorem listHasSub_of_append (pre pat t : List Char) :
    listHasSub pat (pre ++ (pat ++ t)) = true := by
  induction pre with
  | nil =>
    rw [List.nil_append]
    cases hp : pat ++ t with
    | nil =>
      obtain ⟨rfl, rfl⟩ := List.append_eq_nil.mp hp
      rfl
    | cons x s' =>
      rw [listHasSub, ← hp, listHasPre_append_self, Bool.true_or]
  | cons x pre' ih =>
    rw [List.cons_append, listHasSub, ih, Bool.or_true]

/-- Splicing into the min-length template: the characters before the
placeholder, the bound, the characters after. -/
theorem formatBound_min (param : String) :
    buildDescription min_lengthDef (some param)
      = "Must be at least " ++ (param ++ " characters") := rfl

/-- Splicing into the max-length template. -/
theorem formatBound_max (param : String) :
    buildDescription max_lengthDef (some param)
      = "Must be at most " ++ (param ++ " characters") := rfl

/-- C6: whenever the cascade classifies as min_length or max_length, a
captured numeric literal (always a non-empty digit string) is spliced into
that category's description template — so the description contains the
literal — and a match without a captured group (the bare `minlength` /
`maxlength` sub-patterns, where `match.group(1)` raises `IndexError` in the
source) falls back to the generic per-category description instead of
propagating an error. -/
theorem infer_length_descriptions (code : String) (pd : PatternDef)
    (cap : Option String)
    (hnb : ¬(code = "" ∨ code.data.all Char.isWhitespace))
    (hscan : scanPatterns PATTERNS code = some (pd, cap))
    (hlen : pd.type' = "min_length" ∨ pd.type' = "max_length") :
    (infer_validation_rule code).type' = pd.type' ∧
    (∀ param, cap = some param →
      param ≠ "" ∧ param.data.all Char.isDigit ∧
      (infer_validation_rule code).description =
        (if pd.type' = "min_length" then "Must be at least " else "Must be at most ")
          ++ (param ++ " characters") ∧
      listHasSub param.data (infer_validation_rule code).description.data = true) ∧
    (cap = none →
      (infer_validation_rule code).description = "Validation rule: " ++ pd.type') := by
  have hinfer : infer_validation_rule code =
      { type' := pd.type'
        description := buildDescription pd cap
        confidence := some pd.confidence } := by
    rw [infer_validation_rule, if_neg hnb, hscan]
  obtain ⟨hmem, hsub⟩ := scanPatterns_sub PATTERNS code pd cap hscan
  have hpd : pd = min_lengthDef ∨ pd = max_lengthDef := by
    simp only [PATTERNS, List.mem_cons, List.not_mem_nil, or_false] at hmem
    rcases hmem with rfl | rfl | rfl | rfl | rfl | rfl | rfl | rfl
    · exact absurd hlen (by decide)
    · exact absurd hlen (by decide)
    · exact absurd hlen (by decide)
    · exact absurd hlen (by decide)
    · exact Or.inl rfl
    · exact Or.inr rfl
    · exact absurd hlen (by decide)
    · exact absurd hlen (by decide)
  refine ⟨by rw [hinfer], ?_, ?_⟩
  · intro param hcap
    subst hcap
    obtain ⟨p, hp, hsearch⟩ := scanSubpatterns_source pd.patterns code (some param) hsub
    obtain ⟨s₀, htry⟩ := searchChars_tryAt_source p code.data (some param) hsearch
    have hcapg : p.capture = some (RAtom.digitCls, RQuant.plus) := by
      rcases hpd with rfl | rfl <;>
        · simp only [min_lengthDef, max_lengthDef, List.mem_cons,
            List.not_mem_nil, or_false] at hp
          rcases hp with rfl | rfl | rfl
          · rfl
          · rfl
          · exact Option.noConfusion (tryAt_capture_none _ s₀ _ rfl htry)
    obtain ⟨hne, hdig⟩ := tryAt_capture_digits p s₀ param hcapg htry
    refine ⟨hne, hdig, ?_, ?_⟩
    · rw [hinfer]
      rcases hpd with rfl | rfl
      · rw [formatBound_min param]
        rfl
      · rw [formatBound_max param]
        rfl
    · rw [hinfer]
      rcases hpd with rfl | rfl
      · rw [formatBound_min param]
        exact listHasSub_of_append "Must be at least ".data param.data " characters".data
      · rw [formatBound_max param]
        exact listHasSub_of_append "Must be at most ".data param.data " characters".data
  · intro hcap
    subst hcap
    rw [hinfer]
    rcases hpd with rfl | rfl <;> rfl

/-- Witness for C6: the claim's spliced instance (the bound 8 appears in
the description), the generic fall-backs for `minlength`/`maxlength`, and a
max-length splice. -/
theorem infer_length_descriptions_witness :
    (infer_validation_rule "if (value.length < 8) \x7b...\x7d").description
      = "Must be at least 8 characters" ∧
    listHasSub "8".data
      (infer_validation_rule "if (value.length < 8) \x7b...\x7d").description.data
      = true ∧
    (infer_validation_rule "minlength").description = "Validation rule: min_length" ∧
    (infer_validation_rule "value.length > 20").description
      = "Must be at most 20 characters" ∧
    (infer_validation_rule "maxlength").description = "Validation rule: max_length" := by
  have h8 := infer_length_descriptions "if (value.length < 8) \x7b...\x7d"
    min_lengthDef (some "8") (by decide) (by decide) (Or.inl rfl)
  have hmin := infer_length_descriptions "minlength" min_lengthDef none
    (by decide) (by decide) (Or.inl rfl)
  have h20 := infer_length_descriptions "value.length > 20" max_lengthDef (some "20")
    (by decide) (by decide) (Or.inr rfl)
  have hmax := infer_length_descriptions "maxlength" max_lengthDef none
    (by decide) (by decide) (Or.inr rfl)
  obtain ⟨-, hs8, -⟩ := h8
  obtain ⟨-, -, hd8, hc8⟩ := hs8 "8" rfl
  obtain ⟨-, hs20, -⟩ := h20
  obtain ⟨-, -, hd20, -⟩ := hs20 "20" rfl
  exact ⟨hd8.trans (by decide), hc8, hmin.2.2 rfl, hd20.trans (by decide),
    hmax.2.2 rfl⟩

/-! ## Helper lemmas about the session's finalize loop -/

theorem buildRecorded_length (ch : List ChangeRecord) :
    ∀ (i : Nat) (acts : List ActionDict),
      (buildRecorded ch i acts).length = acts.length := by
  intro i acts
  induction acts generalizing i with
  | nil => rfl
  | cons a rest ih => simp [buildRecorded, ih]

theorem buildRecorded_map_type (ch : List ChangeRecord) :
    ∀ (i : Nat) (acts : List ActionDict),
      (buildRecorded ch i acts).map RecordedAction.action_type
        = acts.map ActionDict.type' := by
  intro i acts
  induction acts generalizing i with
  | nil => rfl
  | cons a rest ih => simp [buildRecorded, ih]

theorem buildRecorded_map_selector (ch : List ChangeRecord) :
    ∀ (i : Nat) (acts : List ActionDict),
      (buildRecorded ch i acts).map RecordedAction.selector
        = acts.map ActionDict.selector := by
  intro i acts
  induction acts generalizing i with
  | nil => rfl
  | cons a rest ih => simp [buildRecorded, ih]

theorem buildRecorded_map_value (ch : List ChangeRecord) :
    ∀ (i : Nat) (acts : List ActionDict),
      (buildRecorded ch i acts).map RecordedAction.value
        = acts.map ActionDict.value := by
  intro i acts
  induction acts generalizing i with
  | nil => rfl
  | cons a rest ih => simp [buildRecorded, ih]

/-- Every action emitted by the loop from a non-zero start index carries an
empty change list. -/
theorem buildRecorded_changes_of_start_ne (ch : List ChangeRecord) :
    ∀ (acts : List ActionDict) (start : Nat), start ≠ 0 →
      ∀ (j : Nat) (r : RecordedAction),
        (buildRecorded ch start acts).get? j = some r → r.changes = [] := by
  intro acts
  induction acts with
  | nil => intro start _ j r h; simp [buildRecorded] at h
  | cons a rest ih =>
    intro start hstart j r h
    cases j with
    | zero =>
      rw [buildRecorded] at h
      simp only [List.get?_cons_zero, Option.some.injEq] at h
      rw [← h, if_neg hstart]
    | succ j' =>
      rw [buildRecorded] at h
      simp only [List.get?_cons_succ] at h
      exact ih (start + 1) (Nat.succ_ne_zero start) j' r h

/-! ## Claim theorems for the Recording Session -/

/-- C1: finalize on a started session emits one RecordedAction per captured
action, in capture order; the whole drained batch goes to the first action
and every later action receives an empty change list; with zero captured
actions nothing is emitted and the state is untouched, whatever the batch
holds. -/
theorem finalize_attribution (s : SessionState) (t : TrackerState) (o : ObserverState)
    (ht : s.tracker = some t) (ho : s.observer = some o) :
    (get_actions t = [] → process_pending_actions s = .ok s) ∧
    (get_actions t ≠ [] →
      ∃ s', process_pending_actions s = .ok s' ∧
        ∃ emitted, s'.recorded_actions = s.recorded_actions ++ emitted ∧
          emitted.length = (get_actions t).length ∧
          emitted.map RecordedAction.action_type = (get_actions t).map ActionDict.type' ∧
          emitted.map RecordedAction.selector = (get_actions t).map ActionDict.selector ∧
          emitted.map RecordedAction.value = (get_actions t).map ActionDict.value ∧
          (∀ r, emitted.get? 0 = some r → r.changes = (after_action o).1) ∧
          (∀ j r, j ≠ 0 → emitted.get? j = some r → r.changes = [])) := by
  obtain ⟨tr, ob, rec⟩ := s
  simp only [SessionState.tracker] at ht
  simp only [SessionState.observer] at ho
  subst ht
  subst ho
  constructor
  · intro hempty
    rw [process_pending_actions]
    dsimp only
    rw [if_pos (List.isEmpty_iff.mpr hempty)]
  · intro hne
    rw [process_pending_actions]
    dsimp only
    rw [if_neg (by simpa [List.isEmpty_iff] using hne)]
    refine ⟨_, rfl, buildRecorded (after_action o).1 0 (get_actions t), rfl,
      buildRecorded_length _ _ _, buildRecorded_map_type _ _ _,
      buildRecorded_map_selector _ _ _, buildRecorded_map_value _ _ _, ?_, ?_⟩
    · intro r h
      cases hacts : get_actions t with
      | nil => exact absurd hacts hne
      | cons a rest =>
        rw [hacts, buildRecorded] at h
        simp only [List.get?_cons_zero, Option.some.injEq] at h
        rw [← h]
        simp
    · intro j r hj h
      cases hacts : get_actions t with
      | nil => exact absurd hacts hne
      | cons a rest =>
        rw [hacts, buildRecorded] at h
        cases j with
        | zero => exact absurd rfl hj
        | succ j' =>
          simp only [List.get?_cons_succ] at h
          exact buildRecorded_changes_of_start_ne _ rest 1 one_ne_zero j' r h

/-- Witness for C1 at a session holding two captured actions (a click and a
fill), one pending DOM addition and one pending API request. -/
theorem finalize_attribution_witness :
    get_actions trackerEx ≠ [] ∧
    ∃ s', process_pending_actions sessionEx = .ok s' ∧
      ∃ emitted, s'.recorded_actions = sessionEx.recorded_actions ++ emitted ∧
        emitted.length = (get_actions trackerEx).length ∧
        emitted.map RecordedAction.action_type
          = (get_actions trackerEx).map ActionDict.type' ∧
        emitted.map RecordedAction.selector
          = (get_actions trackerEx).map ActionDict.selector ∧
        emitted.map RecordedAction.value
          = (get_actions trackerEx).map ActionDict.value ∧
        (∀ r, emitted.get? 0 = some r → r.changes = (after_action observerEx).1) ∧
        (∀ j r, j ≠ 0 → emitted.get? j = some r → r.changes = []) :=
  ⟨by decide, (finalize_attribution sessionEx trackerEx observerEx rfl rfl).2 (by decide)⟩

/-- C2 (amended): when the tracker or the observer is unavailable,
finalize returns without raising and leaves the session state untouched. -/
theorem finalize_uninitialized_returns (s : SessionState)
    (h : s.tracker = none ∨ s.observer = none) :
    process_pending_actions s = .ok s := by
  obtain ⟨tr, ob, rec⟩ := s
  simp only [SessionState.tracker, SessionState.observer] at h
  cases tr with
  | none => cases ob <;> rfl
  | some t =>
    cases ob with
    | none => rfl
    | some o => rcases h with h | h <;> exact absurd h (by simp)

/-- Witness for C2 (amended) at a session whose observer is running but
whose tracker is absent. -/
theorem finalize_uninitialized_returns_witness :
    sessionNoTracker.tracker = none ∧
    process_pending_actions sessionNoTracker = .ok sessionNoTracker :=
  ⟨rfl, finalize_uninitialized_returns sessionNoTracker (Or.inl rfl)⟩

/-- Counterexample to C2 as stated: on a session that was never started,
finalize does not fail with `NotInitializedError` (or any error) — it
returns the unchanged state successfully. -/
theorem finalize_uninitialized_counterexample :
    process_pending_actions { tracker := none, observer := none, recorded_actions := [] }
      = .ok { tracker := none, observer := none, recorded_actions := [] } ∧
    ∀ e : RecError,
      process_pending_actions { tracker := none, observer := none, recorded_actions := [] }
        ≠ .error e :=
  ⟨rfl, fun _ h => Except.noConfusion h⟩

/-- C3 fails on the code: a second finalize re-fetches the same captured
actions (the tracker store is never cleared) and appends them again, so the
one captured click is counted twice — the recorded list grows from one to
two entries instead of staying fixed. -/
theorem finalize_twice_double_counts :
    ∃ s₁ s₂,
      process_pending_actions sessionOnce = .ok s₁ ∧
      process_pending_actions s₁ = .ok s₂ ∧
      get_recorded_actions s₁ =
        [{ action_type := "click", selector := "#btn",
           changes := [.domChange "added" "#panel" none] }] ∧
      get_recorded_actions s₂ =
        [{ action_type := "click", selector := "#btn",
           changes := [.domChange "added" "#panel" none] },
         { action_type := "click", selector := "#btn", changes := [] }] ∧
      get_recorded_actions s₂ ≠ get_recorded_actions s₁ := by
  refine ⟨_, _, rfl, rfl, ?_, ?_, ?_⟩ <;> decide

/-! ## Helper lemmas about the change observer -/

/-- An attribute mutation never yields a network-request record. -/
theorem process_attribute_mutation_not_network (st : ObserverState)
    (an : Option String) (e : ElemInfo) (ov nv : Option String) (c : ChangeRecord)
    (h : (process_attribute_mutation st an e ov nv).1 = some c) :
    c.isNetwork = false := by
  rw [process_attribute_mutation] at h
  dsimp only at h
  simp only [apply_ite Prod.fst] at h
  split_ifs at h <;>
    first
      | exact Option.noConfusion h
      | (rw [Option.some_inj] at h; rw [← h]; rfl)

/-- A childList mutation never yields a network-request record. -/
theorem process_childlist_mutation_not_network (st : ObserverState)
    (a : Option String) (e : ElemInfo) (c : ChangeRecord)
    (h : (process_childlist_mutation st a e).1 = some c) :
    c.isNetwork = false := by
  rw [process_childlist_mutation] at h
  dsimp only at h
  simp only [apply_ite Prod.fst] at h
  split_ifs at h
  split at h <;>
    first
      | exact Option.noConfusion h
      | (dsimp only at h; rw [Option.some_inj] at h; rw [← h]; rfl)

/-- The mutation loop emits only DOM/CSS records. -/
theorem processMutations_not_network (ms : List RawMutation) :
    ∀ (st : ObserverState) (c : ChangeRecord),
      c ∈ (processMutations st ms).1 → c.isNetwork = false := by
  induction ms with
  | nil => intro st c h; simp [processMutations] at h
  | cons m rest ih =>
    intro st c h
    simp only [processMutations] at h
    cases m with
    | attributes an e ov nv =>
      dsimp only at h
      cases hstep : (process_attribute_mutation st an e ov nv).1 with
      | none => rw [hstep] at h; exact ih _ c h
      | some c0 =>
        rw [hstep] at h
        rcases List.mem_cons.mp h with rfl | h'
        · exact process_attribute_mutation_not_network st an e ov nv c hstep
        · exact ih _ c h'
    | childList a e =>
      dsimp only at h
      cases hstep : (process_childlist_mutation st a e).1 with
      | none => rw [hstep] at h; exact ih _ c h
      | some c0 =>
        rw [hstep] at h
        rcases List.mem_cons.mp h with rfl | h'
        · exact process_childlist_mutation_not_network st a e c hstep
        · exact ih _ c h'

/-- The network loop emits only network-request records. -/
theorem processNetwork_all_network (reqs : List NetReq) :
    ∀ (st : ObserverState) (c : ChangeRecord),
      c ∈ (processNetwork st reqs).1 → c.isNetwork = true := by
  induction reqs with
  | nil => intro st c h; simp [processNetwork] at h
  | cons req rest ih =>
    intro st c h
    simp only [processNetwork] at h
    by_cases hapi : is_api_request req.url = true
    · rw [if_pos hapi] at h
      by_cases hdup : (req.method ++ ":" ++ extract_api_pattern req.url)
          ∈ st.seen_api_patterns
      · rw [if_pos hdup] at h
        exact ih _ c h
      · rw [if_neg hdup] at h
        rcases List.mem_cons.mp h with rfl | h'
        · rfl
        · exact ih _ c h'
    · rw [if_neg hapi] at h
      exact ih _ c h

/-! ## Claim theorem for the change cap -/

/-- C10: one drain returns at most `max_changes_per_action` DOM/CSS
records — the processed DOM/CSS list truncated to its first
`max_changes_per_action` entries — followed by the network-request records,
which are appended after the cap and not subject to it; the constructor
default for the cap is 10. -/
theorem after_action_caps_dom_css (o : ObserverState) :
    ∃ net,
      (after_action o).1 =
        (processMutations o o.mutations).1.take o.max_changes_per_action ++ net ∧
      ((processMutations o o.mutations).1.take o.max_changes_per_action).length
        ≤ o.max_changes_per_action ∧
      (∀ c ∈ (processMutations o o.mutations).1, c.isNetwork = false) ∧
      (∀ c ∈ net, c.isNetwork = true) ∧
      net = (processNetwork (processMutations o o.mutations).2 o.network_requests).1 ∧
      ({} : ObserverState).max_changes_per_action = 10 := by
  refine ⟨(processNetwork (processMutations o o.mutations).2 o.network_requests).1,
    ?_, ?_, ?_, ?_, rfl, rfl⟩
  · rw [after_action]
    dsimp only
    split_ifs with hlen
    · rfl
    · rw [List.take_of_length_le (Nat.le_of_not_lt hlen)]
  · rw [List.length_take]
    exact Nat.min_le_left _ _
  · exact fun c hc => processMutations_not_network o.mutations o c hc
  · exact fun c hc => processNetwork_all_network o.network_requests _ c hc

/-- Witness for C10: twelve pending DOM additions against a cap of three,
plus one API request appended behind the cap. -/
theorem after_action_caps_dom_css_witness :
    (after_action observerCapEx).1 =
      (processMutations observerCapEx observerCapEx.mutations).1.take
        observerCapEx.max_changes_per_action ++
      (processNetwork (processMutations observerCapEx observerCapEx.mutations).2
        observerCapEx.network_requests).1 ∧
    (after_action observerCapEx).1.length = 4 := by
  obtain ⟨net, h1, _, _, _, h5, _⟩ := after_action_caps_dom_css observerCapEx
  constructor
  · rw [h1, h5]
  · rw [h1, h5]
    decide

/-! ## Helper lemmas about the analyzer -/

/-- When every listener carries a non-empty event type, the collected event
list of a non-empty listener list is non-empty. -/
theorem events_nonempty (ls : List CapturedListener) (hne : ls ≠ [])
    (h : ∀ l ∈ ls, l.type' ≠ "") :
    (ls.filterMap (fun l => if l.type' = "" then none else some l.type')).isEmpty
      = false := by
  cases ls with
  | nil => exact absurd rfl hne
  | cons l ls' =>
    have hl : l.type' ≠ "" := h l (List.mem_cons_self l ls')
    rw [List.filterMap_cons]
    rw [if_neg hl]
    rfl

/-- Under the same hypothesis, the extracted listener infos correspond, one
for one and in order, to the elements with a non-empty listener list. -/
theorem extract_listeners_selectors (elements : List PageElement)
    (h : ∀ el ∈ elements, ∀ l ∈ el.listeners, l.type' ≠ "") :
    (extract_listeners elements).map ListenerInfo.selector
      = (elements.filter (fun el => !el.listeners.isEmpty)).map buildListenerSelector := by
  induction elements with
  | nil => rfl
  | cons el rest ih =>
    have hrest := fun el' hel' => h el' (List.mem_cons_of_mem el hel')
    have hel := h el (List.mem_cons_self el rest)
    rw [extract_listeners, List.filterMap_cons, List.filter_cons]
    by_cases hemp : el.listeners.isEmpty
    · rw [if_pos hemp]
      simp only [hemp, Bool.not_true, if_neg (by simp : ¬(false = true))]
      exact ih hrest
    · have hne : el.listeners ≠ [] := by
        simpa [List.isEmpty_iff] using hemp
      have hemp' : el.listeners.isEmpty = false := by
        simpa using hemp
      have hev := events_nonempty el.listeners hne hel
      simp only [hemp', hev, Bool.false_eq_true, if_false, Bool.not_false, if_true,
        List.map_cons]
      exact congrArg (List.cons (buildListenerSelector el)) (ih hrest)

/-! ## Claim theorem for the analyzer invariant -/

/-- C7: in one analysis pass, every element with at least one script
listener yields exactly one interaction (in element order) and elements
without listeners never appear in the interactions list. -/
theorem analysis_one_interaction_per_listener (url analyzed_at : String)
    (elements : List PageElement)
    (h : ∀ el ∈ elements, ∀ l ∈ el.listeners, l.type' ≠ "") :
    (analyze_page url analyzed_at elements).interactions.map
        (fun i => i.element.selector)
      = (elements.filter (fun el => !el.listeners.isEmpty)).map buildListenerSelector ∧
    (analyze_page url analyzed_at elements).interactions.length
      = (elements.filter (fun el => !el.listeners.isEmpty)).length := by
  have hsel : (analyze_page url analyzed_at elements).interactions.map
      (fun i => i.element.selector)
      = (extract_listeners elements).map ListenerInfo.selector := by
    rw [analyze_page]
    dsimp only
    rw [List.map_map]
    rfl
  have hmain := extract_listeners_selectors elements h
  refine ⟨hsel.trans hmain, ?_⟩
  have := congrArg List.length (hsel.trans hmain)
  simpa using this

/-- Witness for C7: one input with a blur listener yields one interaction;
the listenerless select contributes nothing. -/
theorem analysis_one_interaction_per_listener_witness :
    (analyze_page "https://example.test/" "2026-01-01T00:00:00+00:00"
        elementsEx).interactions.map (fun i => i.element.selector)
      = ["input#mail"] ∧
    (analyze_page "https://example.test/" "2026-01-01T00:00:00+00:00"
        elementsEx).interactions.length = 1 := by
  have h := analysis_one_interaction_per_listener "https://example.test/"
    "2026-01-01T00:00:00+00:00" elementsEx (by decide)
  obtain ⟨h1, h2⟩ := h
  exact ⟨h1.trans (by decide), h2.trans (by decide)⟩

/-! ## Helper lemmas about serialization -/

/-- No field survives `dropNullFields` with a `null` value. -/
theorem dropNullFields_no_null (fs : List (String × Json)) :
    ∀ kv ∈ dropNullFields fs, kv.2.isNull = false := by
  intro kv hkv
  have := (List.mem_filter.mp hkv).2
  simpa using this

/-- The serialized interaction resolves `element.selector` to the source
selector and serializes `validation` without its `null` fields. -/
theorem interaction_to_dict_fields (it : Interaction) :
    (jGet (interaction_to_dict it) "element").bind (fun e => jGet e "selector")
      = some (.str it.element.selector) ∧
    ∃ vfields, jGet (interaction_to_dict it) "validation" = some (.obj vfields) ∧
      (∀ kv ∈ vfields, kv.2.isNull = false) ∧
      ((vfields.find? (fun kv => kv.1 == "rule_description")).isSome
        ↔ it.validation.rule_description ≠ none) ∧
      ((vfields.find? (fun kv => kv.1 == "confidence")).isSome
        ↔ it.validation.confidence ≠ none) := by
  have helem : jGet (interaction_to_dict it) "element"
      = some (elementInfoDict it.element) := by
    rw [interaction_to_dict]
    cases it.error_display <;> cases it.examples <;> rfl
  have hval : jGet (interaction_to_dict it) "validation"
      = some (.obj (dropNullFields
          [("type", .str it.validation.type'),
           ("raw_code", .str it.validation.raw_code),
           ("rule_description", jOpt it.validation.rule_description),
           ("confidence", jOpt it.validation.confidence)])) := by
    rw [interaction_to_dict]
    cases it.error_display <;> cases it.examples <;> rfl
  refine ⟨by rw [helem]; rfl, _, hval, dropNullFields_no_null _, ?_, ?_⟩
  · cases hrd : it.validation.rule_description <;>
      cases hcf : it.validation.confidence <;>
      simp [dropNullFields, jOpt, Json.isNull, List.find?]
  · cases hrd : it.validation.rule_description <;>
      cases hcf : it.validation.confidence <;>
      simp [dropNullFields, jOpt, Json.isNull, List.find?]

/-! ## Claim theorem for serialization round-trip -/

/-- C8: the serialized analysis result (the JSON tree that `json.dumps`
emits and `json.loads` reads back unchanged) preserves the url and every
interaction's element selector, and omits every validation sub-field that
was `null` in the source object. -/
theorem to_dict_preserves_url_selectors_omits_null (a : AnalysisResult) :
    jGet (to_dict a) "url" = some (.str a.url) ∧
    ∃ xs, jGet (to_dict a) "interactions" = some (.arr xs) ∧
      xs.length = a.interactions.length ∧
      ∀ (i : Nat) (it : Interaction), a.interactions.get? i = some it →
        ∃ j, xs.get? i = some j ∧
          (jGet j "element").bind (fun e => jGet e "selector")
            = some (.str it.element.selector) ∧
          ∃ vfields, jGet j "validation" = some (.obj vfields) ∧
            (∀ kv ∈ vfields, kv.2.isNull = false) ∧
            ((vfields.find? (fun kv => kv.1 == "rule_description")).isSome
              ↔ it.validation.rule_description ≠ none) ∧
            ((vfields.find? (fun kv => kv.1 == "confidence")).isSome
              ↔ it.validation.confidence ≠ none) := by
  refine ⟨rfl, a.interactions.map interaction_to_dict, rfl, List.length_map _ _, ?_⟩
  intro i it hit
  refine ⟨interaction_to_dict it, ?_, interaction_to_dict_fields it⟩
  rw [List.get?_map, hit]
  rfl

/-- Witness for C8 at a result whose single interaction has a `null` rule
description and a present confidence. -/
theorem to_dict_preserves_witness :
    jGet (to_dict analysisEx) "url" = some (.str "https://example.test/") ∧
    ∃ xs, jGet (to_dict analysisEx) "interactions" = some (.arr xs) ∧
      xs.length = 1 := by
  obtain ⟨hurl, xs, hxs, hlen, _⟩ := to_dict_preserves_url_selectors_omits_null analysisEx
  exact ⟨hurl, xs, hxs, hlen.trans (by decide)⟩

end JsDetector
